import Mathlib

/-!
Verification of the windowed-subprocess core of `cargo-plugin-utils`.

This file shallowly embeds the code of `src/logger.rs`, `src/scrolling.rs`
and `src/tty.rs`:

* bytes are modelled as `Nat` values (the content of a Rust `u8`; the code
  treats output bytes opaquely, the only byte it inspects is the line feed
  `b'\n' = 10`);
* the blocking PTY reader loop of `run_subprocess` (logger.rs lines
  385-423) is modelled as a fold over the sequence of `read` results it
  observes, recording every `extend_from_slice` onto `full_output`, every
  `extend_from_slice` onto the shared `collected_output` accumulator, and
  every `tx.send` in call order;
* the render task (logger.rs lines 430-491) is modelled by `splitLines`
  (the byte scan that splits `output_buffer` into complete lines),
  `ringPush` (the push-then-evict ring update) and `ingest`/`renderRun`;
* `u16` casts and arithmetic are modelled on `Nat` with explicit
  `% 65536` where the Rust code truncates (`stderr_lines as u16`) or where
  release-mode wrap-around can occur (`term_rows - stderr_lines_u16 + 1`);
* the escape-sequence writers of `scrolling.rs` are modelled as the exact
  strings the `write!` calls format;
* `should_show_progress` of `tty.rs` is modelled over the environment
  value and the tty check result.

Concurrency is resolved into explicit parameters of `RunArgs`: the list of
read results the reader observes, whether the bounded reader/renderer
joins timed out, and how many read results had been mirrored into the
shared accumulator when the timeout snapshot was taken.
-/

/-- Bytes are `u8` values, written as `Nat`. The line terminator is 10. -/
abbrev Byte := Nat

/-- ASCII bytes of a string literal (all concrete inputs used here are
ASCII, where Rust `str::as_bytes` agrees with codepoint values). -/
def strBytes (s : String) : List Byte :=
  s.data.map Char.toNat

/- ## Ring buffer renderer (logger.rs lines 426-491) -/

/-- One step of the byte scan of logger.rs lines 435-446: push the byte
onto `current_line`; when it is `b'\n'` close the line. The accumulator is
`(lines, current_line)`. -/
def lineStep (acc : List (List Byte) × List Byte) (b : Byte) : List (List Byte) × List Byte :=
  let cur := acc.2 ++ [b]
  if b = 10 then (acc.1 ++ [cur], []) else (acc.1, cur)

/-- The scan of logger.rs lines 435-447: split a buffer into the complete
lines (terminator included) and the remaining unterminated tail. -/
def splitLines (buf : List Byte) : List (List Byte) × List Byte :=
  buf.foldl lineStep ([], [])

/-- Ring-buffer update of logger.rs lines 450-455: push the line, then if
the length exceeds `stderr_lines` remove index 0 (the oldest line). -/
def ringPush (n : Nat) (ring : List (List Byte)) (line : List Byte) : List (List Byte) :=
  let r := ring ++ [line]
  if n < r.length then r.drop 1 else r

/-- State of the render task: `buffer` is `output_buffer` (the pending
unterminated bytes), `ring` is `output_ring`. The `history` field is a
ghost observer recording, in order, every complete line the loop of
logger.rs lines 450-455 pushes onto the ring; it changes no behaviour. -/
structure RenderState where
  buffer : List Byte
  ring : List (List Byte)
  history : List (List Byte)
deriving Repr, DecidableEq

/-- One iteration of the `while let Some(chunk) = rx.recv()` body
(logger.rs lines 431-455, ignoring the terminal repaint which does not
change the state): append the chunk, rescan the whole buffer into
complete lines plus tail, and push each complete line onto the ring. -/
def ingest (n : Nat) (s : RenderState) (chunk : List Byte) : RenderState :=
  let scanned := splitLines (s.buffer ++ chunk)
  { buffer := scanned.2
    ring := scanned.1.foldl (ringPush n) s.ring
    history := s.history ++ scanned.1 }

/-- The render task over a whole sequence of received chunks, from the
initial empty buffer and empty ring. -/
def renderRun (n : Nat) (chunks : List (List Byte)) : RenderState :=
  chunks.foldl (ingest n) ⟨[], [], []⟩

/-- The trailing-fragment flush of logger.rs lines 472-477: when the
channel closes with a non-empty `output_buffer`, the partial line is
pushed onto the ring (with the same eviction) as the final line. Returns
the final ring. -/
def finalizeRing (n : Nat) (s : RenderState) : List (List Byte) :=
  if s.buffer = [] then s.ring else ringPush n s.ring s.buffer

/-- Specification-side notion used to state the ring-buffer claims: all
completed lines of a byte stream, the trailing unterminated fragment
counted as one final line when it is non-empty. -/
def specCompletedLines (stream : List Byte) : List (List Byte) :=
  (splitLines stream).1 ++ (if (splitLines stream).2 = [] then [] else [(splitLines stream).2])

/- ## PTY reader task (logger.rs lines 383-423) -/

/-- One result of `reader.read(&mut buffer)` as the blocking reader loop
observes it: `chunk data` is `Ok(n)` with `data = buffer[..n]` (so
`chunk []` is `Ok(0)`, end of stream), `readErr msg` is `Err(e)` with
`msg` the display text of the error. -/
inductive ReadEvent where
  | chunk (data : List Byte)
  | readErr (msg : String)
deriving Repr, DecidableEq

/-- The bytes a read event delivered from the PTY master (an error
delivers none). -/
def ReadEvent.data : ReadEvent → List Byte
  | .chunk d => d
  | .readErr _ => []

/-- State of the reader task. Each field records one destination as the
list of writes made to it, in call order: `fullChunks` the
`extend_from_slice` calls on the local `full_output`, `collectedChunks`
the `extend_from_slice` calls on the shared `collected_output`
accumulator, `sent` the `tx.send` calls on the channel. -/
structure ReaderState where
  fullChunks : List (List Byte)
  collectedChunks : List (List Byte)
  sent : List (List Byte)
deriving Repr, DecidableEq

/-- The synthetic diagnostic marker of logger.rs line 404:
`format!("<pty read error: {}>", e)` as bytes. -/
def errorMarker (msg : String) : List Byte :=
  strBytes ("<pty read error: " ++ msg ++ ">")

/-- Lines 394-400 and 404-410 of logger.rs append the same bytes to
`full_output`, to the shared accumulator (whose lock a single writer
always obtains), and send them on the channel. -/
def readerAppend (s : ReaderState) (d : List Byte) : ReaderState :=
  { fullChunks := s.fullChunks ++ [d]
    collectedChunks := s.collectedChunks ++ [d]
    sent := s.sent ++ [d] }

/-- The reader loop of logger.rs lines 390-414 over the read results it
observes: `Ok(0)` breaks, `Ok(n)` forwards the chunk to all three
destinations and continues, `Err(e)` forwards the diagnostic marker and
breaks. -/
def readerRunFrom (s : ReaderState) : List ReadEvent → ReaderState
  | [] => s
  | .chunk [] :: _ => s
  | .chunk (b :: bs) :: rest => readerRunFrom (readerAppend s (b :: bs)) rest
  | .readErr m :: _ => readerAppend s (errorMarker m)

/-- The reader task from its initial empty buffers. -/
def readerRun (evs : List ReadEvent) : ReaderState :=
  readerRunFrom ⟨[], [], []⟩ evs

/- ## Scrolling-region geometry and run model (logger.rs lines 300-553) -/

/-- Result type of `run_subprocess` (logger.rs lines 246-253), with byte
vectors as byte lists and the `u32` exit code as a `Nat`. -/
structure SubprocessOutput where
  stdout : List Byte
  stderr : List Byte
  exit_code : Nat
deriving Repr, DecidableEq

/-- Method `SubprocessOutput::success` (logger.rs lines 267-269). -/
def SubprocessOutput.success (o : SubprocessOutput) : Bool :=
  o.exit_code == 0

/-- Environmental and scheduling facts that determine one run of
`run_subprocess`, resolved into explicit data:

* `reads`: the results the blocking PTY reader observes, in order;
* `childExit`: `status.exit_code()` of the child;
* `stderrLines`: the `stderr_lines: Option<usize>` argument;
* `isTerm`: whether stderr is attached to a terminal;
* `termRowsRaw`: the `get_terminal_size()` row result when attached
  (`none` when the query fails), a `u16` value;
* `setupFail`: whether one of the fatal setup steps (scrolling-region
  write, cursor move, `openpty`, `spawn_command`, task-join failure)
  returned an error;
* `readerTimedOut`: whether the 10-second reader join timed out;
* `snapshotReads`: how many of `reads` the reader had processed when the
  timeout snapshot of the shared accumulator was taken;
* `renderTimedOut`: whether the 5-second renderer join timed out (its
  result is discarded by the source apart from the `was_term` flag, so it
  does not appear in the returned output). -/
structure RunArgs where
  reads : List ReadEvent
  childExit : Nat
  stderrLines : Option Nat
  isTerm : Bool
  termRowsRaw : Option Nat
  setupFail : Bool
  readerTimedOut : Bool
  snapshotReads : Nat
  renderTimedOut : Bool
deriving Repr, DecidableEq

/-- Terminal row resolution of logger.rs lines 319-323: the real size when
attached to a terminal (24 when the query fails), else the default 24. -/
def resolveRows (a : RunArgs) : Nat :=
  if a.isTerm then a.termRowsRaw.getD 24 else 24

/-- Scrolling-region computation of logger.rs lines 308 and 326-333:
`stderr_lines.unwrap_or(5)` is cast to `u16` (truncation modulo 2^16) and
the region is the last `stderr_lines` rows, the whole terminal when
`stderr_lines_u16 >= term_rows`. The `% 65536` on the top row models the
release-mode wrap of the `u16` addition `term_rows - stderr_lines_u16 + 1`
(it only differs from the plain value when the sum reaches 65536). -/
def computeRegion (stderrLines : Option Nat) (termRows : Nat) : Nat × Nat :=
  let n := stderrLines.getD 5
  let nU16 := n % 65536
  let top := if nU16 < termRows then (termRows - nU16 + 1) % 65536 else 1
  (top, termRows)

/-- Escape sequence of `set_scrolling_region` (scrolling.rs line 22):
the string `write!(stderr, "\x1b[{};{}r", top, bottom)` formats. -/
def setScrollingRegionSeq (top bottom : Nat) : String :=
  "\x1b[" ++ toString top ++ ";" ++ toString bottom ++ "r"

/-- Escape sequence of `reset_scrolling_region` (scrolling.rs line 33). -/
def resetScrollingRegionSeq : String :=
  "\x1b[r"

/-- Escape sequence of `clear_scrolling_region` (scrolling.rs line 51). -/
def clearScrollingRegionSeq : String :=
  "\x1b[J"

/-- Escape sequence of `move_cursor_to_line` (scrolling.rs line 61):
the string `write!(stderr, "\x1b[{};1H", line)` formats. -/
def moveCursorToLineSeq (line : Nat) : String :=
  "\x1b[" ++ toString line ++ ";1H"

/-- Terminal writes of the setup phase of `run_subprocess` (logger.rs
lines 336-341): when attached to a terminal, the scrolling region is set
and the cursor moved to its top; nothing is validated first. -/
def setupWrites (a : RunArgs) : List String :=
  let r := computeRegion a.stderrLines (resolveRows a)
  if a.isTerm then [setScrollingRegionSeq r.1 r.2, moveCursorToLineSeq r.1] else []

/-- The `pty_output` reconciliation of logger.rs lines 505-516: when the
bounded reader join succeeds its accumulated `full_output` is used; on
timeout the clone of the shared accumulator (holding the chunks mirrored
so far) is used instead. -/
def ptyOutput (a : RunArgs) : List Byte :=
  if a.readerTimedOut then
    ((readerRun (a.reads.take a.snapshotReads)).collectedChunks).flatten
  else
    ((readerRun a.reads).fullChunks).flatten

/-- The overall `run_subprocess` (logger.rs lines 300-553) as a function
of the resolved run facts: setup failures propagate as errors; otherwise
the run returns captured output with `stdout` left empty (line 530), all
PTY output attributed to `stderr` (line 531), and the raw child exit code
(lines 534 and 548-552). -/
def run_subprocess (a : RunArgs) : Except String SubprocessOutput :=
  if a.setupFail then .error "setup failed"
  else .ok { stdout := [], stderr := ptyOutput a, exit_code := a.childExit }

/- ## Progress policy (tty.rs lines 24-42) -/

/-- Function `should_show_progress` over the resolved environment:
`envVar` is the value of `CARGO_TERM_PROGRESS_WHEN` (`none` when unset;
`as_deref().unwrap_or("auto")` supplies the default) and `isTty` the
result of the `atty::is(Stdout)` check. The Rust `match` on `&str` is the
equality cascade written here. -/
def should_show_progress (envVar : Option String) (isTty : Bool) : Bool :=
  let v := envVar.getD "auto"
  if v = "never" then false
  else if v = "always" then true
  else if v = "auto" then isTty
  else isTty

/-- Specification-side decimal digit list of a natural number, following
the spec escape-sequence table: the usual base-10 numeral, most
significant digit first, as ASCII characters. -/
def specDecimal (n : Nat) : List Char :=
  if n < 10 then [Char.ofNat (48 + n)]
  else specDecimal (n / 10) ++ [Char.ofNat (48 + n % 10)]
decreasing_by exact Nat.div_lt_self (by omega) (by omega)

/- ## Reader lemmas -/

theorem readerRunFrom_invar (evs : List ReadEvent) : ∀ s : ReaderState,
    s.collectedChunks = s.sent → s.fullChunks = s.sent →
    (readerRunFrom s evs).collectedChunks = (readerRunFrom s evs).sent ∧
    (readerRunFrom s evs).fullChunks = (readerRunFrom s evs).sent := by
  induction evs with
  | nil => exact fun s h1 h2 => ⟨h1, h2⟩
  | cons e rest ih =>
    intro s h1 h2
    cases e with
    | chunk d =>
      cases d with
      | nil => exact ⟨h1, h2⟩
      | cons b bs =>
        exact ih _ (by simp [readerAppend, h1]) (by simp [readerAppend, h2])
    | readErr m =>
      exact ⟨by simp [readerRunFrom, readerAppend, h1],
             by simp [readerRunFrom, readerAppend, h2]⟩

theorem readerRunFrom_clean (evs : List ReadEvent) : ∀ s : ReaderState,
    (∀ e ∈ evs, e.data ≠ []) →
    readerRunFrom s evs =
      { fullChunks := s.fullChunks ++ evs.map ReadEvent.data
        collectedChunks := s.collectedChunks ++ evs.map ReadEvent.data
        sent := s.sent ++ evs.map ReadEvent.data } := by
  induction evs with
  | nil => intro s _; simp [readerRunFrom]
  | cons e rest ih =>
    intro s h
    cases e with
    | chunk d =>
      cases d with
      | nil => exact absurd (h (.chunk []) (by simp)) (by simp [ReadEvent.data])
      | cons b bs =>
        show readerRunFrom (readerAppend s (b :: bs)) rest = _
        rw [ih _ (fun e he => h e (by simp [he]))]
        simp [readerAppend, ReadEvent.data]
    | readErr m => exact absurd (h (.readErr m) (by simp)) (by simp [ReadEvent.data])

theorem readerRunFrom_clean_err (evs : List ReadEvent) (m : String) (s : ReaderState)
    (h : ∀ e ∈ evs, e.data ≠ []) :
    readerRunFrom s (evs ++ [.readErr m]) =
      { fullChunks := s.fullChunks ++ evs.map ReadEvent.data ++ [errorMarker m]
        collectedChunks := s.collectedChunks ++ evs.map ReadEvent.data ++ [errorMarker m]
        sent := s.sent ++ evs.map ReadEvent.data ++ [errorMarker m] } := by
  induction evs generalizing s with
  | nil => simp [readerRunFrom, readerAppend]
  | cons e rest ih =>
    cases e with
    | chunk d =>
      cases d with
      | nil => exact absurd (h (.chunk []) (by simp)) (by simp [ReadEvent.data])
      | cons b bs =>
        show readerRunFrom (readerAppend s (b :: bs)) (rest ++ [.readErr m]) = _
        rw [ih _ (fun e he => h e (by simp [he]))]
        simp [readerAppend, ReadEvent.data]
    | readErr m' => exact absurd (h (.readErr m') (by simp)) (by simp [ReadEvent.data])

/-- C6: during a non-degraded run the fallback accumulator, the local
full-output buffer and the channel receive identical chunks, with the same
boundaries and in the same order, at every point of the reader loop (every
prefix of the read-result sequence is itself a value of `evs`), so the
fallback snapshot always equals the channel-delivered content. -/
theorem reader_fallback_matches_channel (evs : List ReadEvent) :
    (readerRun evs).fullChunks = (readerRun evs).sent ∧
    (readerRun evs).collectedChunks = (readerRun evs).sent ∧
    (readerRun evs).collectedChunks.flatten = (readerRun evs).sent.flatten := by
  obtain ⟨h1, h2⟩ := readerRunFrom_invar evs ⟨[], [], []⟩ rfl rfl
  exact ⟨h2, h1, congrArg List.flatten h1⟩

/- ## Exit-code propagation (C4) -/

/-- Shared concrete run configuration for witnesses of run-level claims. -/
def baseArgs : RunArgs :=
  { reads := [.chunk (strBytes "hello\n")], childExit := 7, stderrLines := some 3
    isTerm := false, termRowsRaw := none, setupFail := false
    readerTimedOut := false, snapshotReads := 0, renderTimedOut := false }

/-- C4: whenever setup succeeds, `run_subprocess` returns the raw child
exit status unchanged in `exit_code`, `success()` holds exactly when the
exit code is 0, a child exiting 42 yields `(42, success = false)` and a
child exiting 0 yields `(0, success = true)`. -/
theorem run_exit_code_faithful (a : RunArgs) (h : a.setupFail = false) :
    (run_subprocess a).map (fun o => o.exit_code) = .ok a.childExit ∧
    (∀ o : SubprocessOutput, o.success = true ↔ o.exit_code = 0) ∧
    (run_subprocess { a with childExit := 42 }).map (fun o => (o.exit_code, o.success)) =
      .ok (42, false) ∧
    (run_subprocess { a with childExit := 0 }).map (fun o => (o.exit_code, o.success)) =
      .ok (0, true) := by
  refine ⟨?_, ?_, ?_, ?_⟩ <;>
    simp [run_subprocess, h, SubprocessOutput.success, Except.map]

/-- Witness for C4 at a concrete run configuration. -/
theorem run_exit_code_faithful_witness :
    baseArgs.setupFail = false ∧
    ((run_subprocess baseArgs).map (fun o => o.exit_code) = .ok baseArgs.childExit ∧
    (∀ o : SubprocessOutput, o.success = true ↔ o.exit_code = 0) ∧
    (run_subprocess { baseArgs with childExit := 42 }).map (fun o => (o.exit_code, o.success)) =
      .ok (42, false) ∧
    (run_subprocess { baseArgs with childExit := 0 }).map (fun o => (o.exit_code, o.success)) =
      .ok (0, true)) :=
  ⟨rfl, run_exit_code_faithful baseArgs rfl⟩

/- ## Reader-join timeout fallback (C5) -/

/-- C5: when the bounded reader join times out after child exit, the run
still returns a result (never an error and never a hang: the function is
total on the timeout branch), and the captured output is exactly the
snapshot of the fallback accumulator taken at timeout. -/
theorem reader_timeout_uses_snapshot (a : RunArgs) (h1 : a.setupFail = false)
    (h2 : a.readerTimedOut = true) :
    run_subprocess a = .ok
      { stdout := []
        stderr := ((readerRun (a.reads.take a.snapshotReads)).collectedChunks).flatten
        exit_code := a.childExit } := by
  simp [run_subprocess, h1, ptyOutput, h2]

/-- Concrete run configuration whose reader join times out after one of
two chunks was mirrored into the accumulator. -/
def timeoutArgs : RunArgs :=
  { baseArgs with
      reads := [.chunk [65], .chunk [66]]
      readerTimedOut := true
      snapshotReads := 1 }

/-- Witness for C5: the timed-out run returns ok with the one-chunk
snapshot as its captured output. -/
theorem reader_timeout_uses_snapshot_witness :
    timeoutArgs.setupFail = false ∧ timeoutArgs.readerTimedOut = true ∧
    run_subprocess timeoutArgs = .ok { stdout := [], stderr := [65], exit_code := 7 } := by
  refine ⟨rfl, rfl, ?_⟩
  exact (reader_timeout_uses_snapshot timeoutArgs rfl rfl).trans rfl

/- ## Captured output (C1) -/

/-- C1 (amended): for every run in which setup succeeds, the reader join
does not time out, and every read result delivers bytes (no read error
and no stray empty read before the final end-of-stream), the returned
`stderr` equals the exact concatenation, in order, of all byte chunks
read from the PTY master, and is independent of the window height; the
`stdout` field is empty. When the read results end in a read error, the
concatenation of the chunks read is followed by exactly the synthetic
diagnostic marker. -/
theorem captured_output_is_concatenation (a : RunArgs) (h1 : a.setupFail = false)
    (h2 : a.readerTimedOut = false) (h3 : ∀ e ∈ a.reads, e.data ≠ []) :
    run_subprocess a = .ok
      { stdout := []
        stderr := (a.reads.map ReadEvent.data).flatten
        exit_code := a.childExit } ∧
    (∀ n₁ n₂ : Option Nat,
      run_subprocess { a with stderrLines := n₁ } =
        run_subprocess { a with stderrLines := n₂ }) ∧
    (∀ m : String, run_subprocess { a with reads := a.reads ++ [.readErr m] } = .ok
      { stdout := []
        stderr := (a.reads.map ReadEvent.data).flatten ++ errorMarker m
        exit_code := a.childExit }) := by
  refine ⟨?_, fun n₁ n₂ => rfl, fun m => ?_⟩
  · simp [run_subprocess, h1, ptyOutput, h2, readerRun,
      readerRunFrom_clean a.reads ⟨[], [], []⟩ h3]
  · simp [run_subprocess, h1, ptyOutput, h2, readerRun,
      readerRunFrom_clean_err a.reads m ⟨[], [], []⟩ h3]

/-- Witness for C1 at a concrete run: one chunk, no error, no timeout. -/
theorem captured_output_is_concatenation_witness :
    baseArgs.setupFail = false ∧ baseArgs.readerTimedOut = false ∧
    run_subprocess baseArgs =
      .ok { stdout := [], stderr := strBytes "hello\n", exit_code := 7 } :=
  ⟨rfl, rfl, ((captured_output_is_concatenation baseArgs rfl rfl (by decide)).1).trans rfl⟩

/-- Concrete run configuration whose only read result is an error. -/
def errArgs : RunArgs :=
  { baseArgs with reads := [.readErr "boom"] }

/-- Counterexample to C1 as stated: in a run whose single read result is
an error, the returned `stderr` is the diagnostic marker, not the
concatenation of the (zero) chunks read from the PTY master; and in a run
whose reader join times out after one of two chunks was mirrored, the
returned `stderr` is the one-chunk snapshot, not the concatenation of
both chunks read. -/
theorem captured_output_counterexample :
    run_subprocess errArgs =
      .ok { stdout := [], stderr := errorMarker "boom", exit_code := 7 } ∧
    errorMarker "boom" ≠ (errArgs.reads.map ReadEvent.data).flatten ∧
    run_subprocess timeoutArgs =
      .ok { stdout := [], stderr := [65], exit_code := 7 } ∧
    ([65] : List Byte) ≠ (timeoutArgs.reads.map ReadEvent.data).flatten := by
  exact ⟨rfl, by decide, rfl, by decide⟩

/- ## Renderer lemmas -/

theorem foldl_lineStep_no_nl (bytes : List Byte) : ∀ ls cur,
    (∀ b ∈ bytes, b ≠ 10) →
    List.foldl lineStep (ls, cur) bytes = (ls, cur ++ bytes) := by
  induction bytes with
  | nil => simp
  | cons x xs ih =>
    intro ls cur h
    have hx : x ≠ 10 := h x (by simp)
    rw [List.foldl_cons]
    simp only [lineStep, if_neg hx]
    rw [ih ls (cur ++ [x]) (fun b hb => h b (by simp [hb]))]
    simp

theorem foldl_lineStep_tail_no_nl (bytes : List Byte) : ∀ ls cur,
    (∀ b ∈ cur, b ≠ 10) →
    ∀ b ∈ (List.foldl lineStep (ls, cur) bytes).2, b ≠ 10 := by
  induction bytes with
  | nil => intro ls cur h; simpa using h
  | cons x xs ih =>
    intro ls cur h
    rw [List.foldl_cons]
    by_cases hx : x = 10
    · subst hx
      simp only [lineStep, if_pos rfl]
      exact ih _ [] (by simp)
    · simp only [lineStep, if_neg hx]
      refine ih _ (cur ++ [x]) ?_
      intro b hb
      rcases List.mem_append.1 hb with h' | h'
      · exact h b h'
      · simp only [List.mem_singleton] at h'
        exact h' ▸ hx

theorem foldl_lineStep_lines (bytes : List Byte) : ∀ ls cur,
    List.foldl lineStep (ls, cur) bytes =
      (ls ++ (List.foldl lineStep ([], cur) bytes).1,
       (List.foldl lineStep ([], cur) bytes).2) := by
  induction bytes with
  | nil => simp
  | cons x xs ih =>
    intro ls cur
    rw [List.foldl_cons, List.foldl_cons]
    by_cases hx : x = 10
    · subst hx
      have e : lineStep (ls, cur) 10 = (ls ++ [cur ++ [10]], []) := by
        simp [lineStep]
      have e0 : lineStep ([], cur) 10 = ([cur ++ [10]], []) := by
        simp [lineStep]
      rw [e, e0, ih (ls ++ [cur ++ [10]]) [], ih [cur ++ [10]] []]
      simp [List.append_assoc]
    · simp only [lineStep, if_neg hx]
      exact ih ls (cur ++ [x])

theorem splitLines_tail_no_nl (buf : List Byte) : ∀ b ∈ (splitLines buf).2, b ≠ 10 :=
  foldl_lineStep_tail_no_nl buf [] [] (by simp)

theorem renderRun_characterization (n : Nat) (chunks : List (List Byte)) :
    renderRun n chunks =
      { buffer := (splitLines chunks.flatten).2
        ring := (splitLines chunks.flatten).1.foldl (ringPush n) []
        history := (splitLines chunks.flatten).1 } := by
  induction chunks using List.reverseRecOn with
  | nil => rfl
  | append_singleton cs c ih =>
    have hstep : renderRun n (cs ++ [c]) = ingest n (renderRun n cs) c := by
      rw [renderRun, List.foldl_append]
      rfl
    have hflat : (cs ++ [c]).flatten = cs.flatten ++ c := by simp
    have htail := splitLines_tail_no_nl cs.flatten
    have hscan : splitLines ((splitLines cs.flatten).2 ++ c) =
        List.foldl lineStep ([], (splitLines cs.flatten).2) c := by
      rw [splitLines, List.foldl_append,
        foldl_lineStep_no_nl (splitLines cs.flatten).2 [] [] htail]
      simp
    have hfull : splitLines (cs.flatten ++ c) =
        ((splitLines cs.flatten).1 ++ (splitLines ((splitLines cs.flatten).2 ++ c)).1,
         (splitLines ((splitLines cs.flatten).2 ++ c)).2) := by
      conv_lhs => rw [splitLines, List.foldl_append]
      rw [show List.foldl lineStep ([], []) cs.flatten = splitLines cs.flatten from rfl]
      rw [show (splitLines cs.flatten : List (List Byte) × List Byte) =
        ((splitLines cs.flatten).1, (splitLines cs.flatten).2) from rfl]
      rw [foldl_lineStep_lines c (splitLines cs.flatten).1 (splitLines cs.flatten).2, hscan]
    rw [hstep, ih]
    simp only [ingest, hflat, hfull, RenderState.mk.injEq]
    refine ⟨trivial, ?_, trivial⟩
    rw [List.foldl_append]

theorem foldl_ringPush_drop (n : Nat) (lines : List (List Byte)) : ∀ r : List (List Byte),
    r.length ≤ n →
    List.foldl (ringPush n) r lines = (r ++ lines).drop ((r ++ lines).length - n) := by
  induction lines with
  | nil =>
    intro r h
    simp [Nat.sub_eq_zero_of_le h]
  | cons l ls ih =>
    intro r h
    rcases Nat.lt_or_ge r.length n with hlt | hge
    · have hp : ringPush n r l = r ++ [l] := by
        simp only [ringPush]
        rw [if_neg (by simp; omega)]
      rw [List.foldl_cons, hp, ih (r ++ [l]) (by simp; omega)]
      simp [List.append_assoc]
    · have heq : r.length = n := Nat.le_antisymm h hge
      have hp : ringPush n r l = (r ++ [l]).drop 1 := by
        simp only [ringPush]
        rw [if_pos (by
          simp only [List.length_append, List.length_cons, List.length_nil]
          omega)]
      have hlen : ((r ++ [l]).drop 1).length ≤ n := by
        simp only [List.length_drop, List.length_append, List.length_cons, List.length_nil]
        omega
      rw [List.foldl_cons, hp, ih _ hlen]
      have hA : ((r ++ [l]) ++ ls).drop 1 = (r ++ [l]).drop 1 ++ ls :=
        List.drop_append_of_le_length (by simp)
      have hB : (r ++ [l]) ++ ls = r ++ l :: ls := by
        rw [List.append_assoc]
        rfl
      rw [← hA, List.drop_drop, hB]
      congr 1
      simp only [List.length_drop, List.length_append, List.length_cons, List.length_nil]
      omega

theorem finalizeRing_eq_foldl (n : Nat) (chunks : List (List Byte)) :
    finalizeRing n (renderRun n chunks) =
      (specCompletedLines chunks.flatten).foldl (ringPush n) [] := by
  rw [renderRun_characterization]
  by_cases hb : (splitLines chunks.flatten).2 = []
  · simp [finalizeRing, hb, specCompletedLines]
  · simp only [finalizeRing, hb, if_neg hb, specCompletedLines]
    rw [List.foldl_append]
    rfl

/-- The concrete scenario of the spec: the child writes lines
"line 1" through "line 6", one write per line. -/
def scenarioChunks : List (List Byte) :=
  [strBytes "line 1\n", strBytes "line 2\n", strBytes "line 3\n",
   strBytes "line 4\n", strBytes "line 5\n", strBytes "line 6\n"]

/-- C2: for every window height N >= 1 and every chunk sequence, the ring
buffer after processing all chunks and flushing the trailing unterminated
fragment holds at most N lines, and they are exactly the N
most-recently-completed lines in original order (all lines when fewer
than N were completed) - strict FIFO eviction of the oldest; for lines
"line 1" through "line 6" with N = 3 the final ring is exactly lines 4,
5 and 6. -/
theorem ring_window_keeps_most_recent (n : Nat) (hn : 1 ≤ n) (chunks : List (List Byte)) :
    (finalizeRing n (renderRun n chunks)).length ≤ n ∧
    finalizeRing n (renderRun n chunks) =
      (specCompletedLines chunks.flatten).drop
        ((specCompletedLines chunks.flatten).length - n) ∧
    finalizeRing 3 (renderRun 3 scenarioChunks) =
      [strBytes "line 4\n", strBytes "line 5\n", strBytes "line 6\n"] := by
  have hmain : finalizeRing n (renderRun n chunks) =
      (specCompletedLines chunks.flatten).drop
        ((specCompletedLines chunks.flatten).length - n) := by
    rw [finalizeRing_eq_foldl, foldl_ringPush_drop n _ [] (by simp)]
    simp
  refine ⟨?_, hmain, ?_⟩
  · rw [hmain, List.length_drop]
    omega
  · rfl

/-- Witness for C2 at the spec scenario: window height 3, six lines. -/
theorem ring_window_keeps_most_recent_witness :
    1 ≤ 3 ∧
    finalizeRing 3 (renderRun 3 scenarioChunks) =
      [strBytes "line 4\n", strBytes "line 5\n", strBytes "line 6\n"] :=
  ⟨by omega, (ring_window_keeps_most_recent 3 (by omega) scenarioChunks).2.2⟩

/-- C3: feeding the same total byte stream to the renderer under any two
chunk fragmentations (and any window heights) produces the same sequence
of detected complete lines and the same trailing unterminated fragment. -/
theorem line_detection_boundary_independent (n₁ n₂ : Nat) (c1 c2 : List (List Byte))
    (h : c1.flatten = c2.flatten) :
    (renderRun n₁ c1).history = (renderRun n₂ c2).history ∧
    (renderRun n₁ c1).buffer = (renderRun n₂ c2).buffer := by
  rw [renderRun_characterization, renderRun_characterization, h]
  exact ⟨rfl, rfl⟩

/-- One-chunk fragmentation of the stream "ab\ncd\nef". -/
def fragA : List (List Byte) := [strBytes "ab\ncd\nef"]

/-- Three-chunk fragmentation of the same stream, splitting lines across
chunk boundaries. -/
def fragB : List (List Byte) := [strBytes "ab\nc", strBytes "d\ne", strBytes "f"]

/-- Witness for C3: the two fragmentations of "ab\ncd\nef" detect the
same lines and leave the same fragment. -/
theorem line_detection_boundary_independent_witness :
    fragA.flatten = fragB.flatten ∧
    ((renderRun 5 fragA).history = (renderRun 2 fragB).history ∧
     (renderRun 5 fragA).buffer = (renderRun 2 fragB).buffer) :=
  ⟨by decide, line_detection_boundary_independent 5 2 fragA fragB (by decide)⟩

/- ## Escape-sequence exactness (C8) -/

theorem digitChar_eq_ofNat (m : Nat) (h : m < 10) :
    Nat.digitChar m = Char.ofNat (48 + m) := by
  interval_cases m <;> decide

theorem toDigitsCore_eq_specDecimal (fuel : Nat) : ∀ n ds, n < fuel →
    Nat.toDigitsCore 10 fuel n ds = specDecimal n ++ ds := by
  induction fuel with
  | zero => intro n ds h; omega
  | succ f ih =>
    intro n ds h
    simp only [Nat.toDigitsCore]
    by_cases h10 : n / 10 = 0
    · have hn : n < 10 := by
        by_contra hc
        have h1 : 1 ≤ n / 10 := (Nat.one_le_div_iff (by omega)).2 (by omega)
        omega
      rw [if_pos h10, specDecimal, if_pos hn, Nat.mod_eq_of_lt hn,
        digitChar_eq_ofNat n hn]
      rfl
    · have hn : ¬ n < 10 := fun hlt => h10 (Nat.div_eq_of_lt hlt)
      have hlt : n / 10 < f := by
        have : n / 10 < n := Nat.div_lt_self (by omega) (by omega)
        omega
      rw [if_neg h10, ih (n / 10) _ hlt]
      conv_rhs => rw [specDecimal]
      rw [if_neg hn, digitChar_eq_ofNat (n % 10) (Nat.mod_lt n (by omega))]
      simp

theorem toString_nat_data (n : Nat) : (toString n).data = specDecimal n := by
  show (Nat.repr n).data = specDecimal n
  rw [Nat.repr, Nat.toDigits, toDigitsCore_eq_specDecimal (n + 1) n [] (by omega)]
  simp [List.asString]

theorem stringData_append (s t : String) : (s ++ t).data = s.data ++ t.data := by
  cases s
  cases t
  rfl

/-- C8: the four terminal primitives emit bit-exact sequences with
decimal 1-indexed parameters: set scrolling region is
ESC [ top ; bottom r, reset is ESC [ r, move cursor is ESC [ line ; 1 H
with the column fixed at 1, and clear is ESC [ J. -/
theorem escape_sequences_exact (top bottom line : Nat) :
    (setScrollingRegionSeq top bottom).data =
      '\x1b' :: '[' :: (specDecimal top ++ ';' :: specDecimal bottom ++ ['r']) ∧
    resetScrollingRegionSeq.data = ['\x1b', '[', 'r'] ∧
    (moveCursorToLineSeq line).data =
      '\x1b' :: '[' :: (specDecimal line ++ [';', '1', 'H']) ∧
    clearScrollingRegionSeq.data = ['\x1b', '[', 'J'] := by
  refine ⟨?_, rfl, ?_, rfl⟩
  · show ((("\x1b[" ++ toString top) ++ ";" ++ toString bottom) ++ "r").data = _
    simp only [stringData_append, toString_nat_data]
    simp [show ("\x1b[" : String).data = ['\x1b', '['] from rfl,
      show (";" : String).data = [';'] from rfl,
      show ("r" : String).data = ['r'] from rfl]
  · show (("\x1b[" ++ toString line) ++ ";1H").data = _
    simp only [stringData_append, toString_nat_data]
    simp [show ("\x1b[" : String).data = ['\x1b', '['] from rfl,
      show (";1H" : String).data = [';', '1', 'H'] from rfl]

/- ## Progress-display policy (C9) -/

/-- C9: the progress override is honoured exactly: value "never" yields
false, "always" yields true, and "auto", an unset variable, or any other
value fall back to the interactive-terminal check. -/
theorem progress_policy (tty : Bool) (v : String) (h1 : v ≠ "never") (h2 : v ≠ "always") :
    should_show_progress (some "never") tty = false ∧
    should_show_progress (some "always") tty = true ∧
    should_show_progress (some "auto") tty = tty ∧
    should_show_progress none tty = tty ∧
    should_show_progress (some v) tty = tty := by
  refine ⟨by simp [should_show_progress], by simp [should_show_progress],
    by simp [should_show_progress], by simp [should_show_progress], ?_⟩
  simp only [should_show_progress, Option.getD]
  rw [if_neg h1, if_neg h2]
  by_cases h3 : v = "auto" <;> simp [h3]

/-- Witness for C9 at the unrecognized value "sometimes" with an
interactive terminal. -/
theorem progress_policy_witness :
    "sometimes" ≠ "never" ∧ "sometimes" ≠ "always" ∧
    (should_show_progress (some "never") true = false ∧
     should_show_progress (some "always") true = true ∧
     should_show_progress (some "auto") true = true ∧
     should_show_progress none true = true ∧
     should_show_progress (some "sometimes") true = true) :=
  ⟨by decide, by decide, progress_policy true "sometimes" (by decide) (by decide)⟩

/- ## Scrolling-region geometry invariant (C7) -/

/-- Counterexample to C7 as stated: the window height is a `usize` and the
code truncates it with `as u16`, so the valid input height 65536 becomes
0; on a 24-row terminal the computed region is (25, 24), whose top exceeds
both the bottom and the terminal height. -/
theorem region_geometry_counterexample :
    computeRegion (some 65536) 24 = (25, 24) ∧
    ¬ ((computeRegion (some 65536) 24).1 ≤ (computeRegion (some 65536) 24).2) := by
  refine ⟨by decide, by decide⟩

/-- C7 (amended): for every window height N with 1 ≤ N ≤ 65535 (heights
above 65535 are truncated by the `as u16` cast and can invert the region)
and every terminal row count R (a `u16` value) with 1 ≤ R ≤ 65535, the
computed geometry satisfies region_top ≤ region_bottom, both at most R;
and whenever N ≥ R the region collapses to the entire terminal with
region_top = 1. -/
theorem region_geometry_invariant (nOpt : Option Nat) (r : Nat) (hr1 : 1 ≤ r)
    (hr2 : r ≤ 65535) (hn1 : 1 ≤ nOpt.getD 5) (hn2 : nOpt.getD 5 ≤ 65535) :
    (computeRegion nOpt r).1 ≤ (computeRegion nOpt r).2 ∧
    (computeRegion nOpt r).2 ≤ r ∧
    (computeRegion nOpt r).1 ≤ r ∧
    (r ≤ nOpt.getD 5 → (computeRegion nOpt r).1 = 1) := by
  simp only [computeRegion]
  have hmod : nOpt.getD 5 % 65536 = nOpt.getD 5 := Nat.mod_eq_of_lt (by omega)
  rw [hmod]
  by_cases hc : nOpt.getD 5 < r
  · rw [if_pos hc]
    have hm2 : (r - nOpt.getD 5 + 1) % 65536 = r - nOpt.getD 5 + 1 :=
      Nat.mod_eq_of_lt (by omega)
    rw [hm2]
    exact ⟨by omega, by omega, by omega, by omega⟩
  · rw [if_neg hc]
    exact ⟨by omega, by omega, by omega, fun _ => rfl⟩

/-- Witness for C7 (amended) at height 3 on a 24-row terminal. -/
theorem region_geometry_invariant_witness :
    (1 ≤ 24 ∧ 24 ≤ 65535 ∧ 1 ≤ (some 3 : Option Nat).getD 5 ∧
      (some 3 : Option Nat).getD 5 ≤ 65535) ∧
    ((computeRegion (some 3) 24).1 ≤ (computeRegion (some 3) 24).2 ∧
     (computeRegion (some 3) 24).2 ≤ 24 ∧
     (computeRegion (some 3) 24).1 ≤ 24 ∧
     (24 ≤ (some 3 : Option Nat).getD 5 → (computeRegion (some 3) 24).1 = 1)) :=
  ⟨⟨by decide, by decide, by decide, by decide⟩,
    region_geometry_invariant (some 3) 24 (by decide) (by decide) (by decide) (by decide)⟩

/- ## Missing validation of the zero window height (C10) -/

/-- Counterexample to C10 as stated over every R >= 1: at the `u16`
boundary R = 65535 the increment `term_rows - 0 + 1` wraps, the computed
top row is 0 rather than R + 1, and it does not exceed the bottom row. -/
theorem zero_height_counterexample :
    computeRegion (some 0) 65535 = (0, 65535) ∧
    ¬ ((computeRegion (some 0) 65535).1 = 65535 + 1 ∧
       (computeRegion (some 0) 65535).2 < (computeRegion (some 0) 65535).1) := by
  refine ⟨by decide, by decide⟩

/-- C10 (amended): `run_subprocess` does not validate its positive
window-height precondition. For `stderr_lines = Some(0)` and any terminal
row count R with 1 ≤ R ≤ 65534, it computes region_top = R + 1 and
region_bottom = R, an inverted region violating the geometry invariant,
and when attached to a terminal it proceeds to emit the scrolling-region
and cursor-move sequences for that empty-inverted region, returning ok
rather than rejecting the input. (At R = 65535 the u16 increment wraps
region_top to 0 instead, still an invalid top row for a 1-indexed
region.) -/
theorem zero_height_not_validated (r : Nat) (hr1 : 1 ≤ r) (hr2 : r ≤ 65534)
    (a : RunArgs) (ha1 : a.stderrLines = some 0) (ha2 : a.isTerm = true)
    (ha3 : a.termRowsRaw = some r) (ha4 : a.setupFail = false) :
    computeRegion (some 0) r = (r + 1, r) ∧
    (computeRegion (some 0) r).2 < (computeRegion (some 0) r).1 ∧
    setupWrites a = [setScrollingRegionSeq (r + 1) r, moveCursorToLineSeq (r + 1)] ∧
    (run_subprocess a).isOk = true := by
  have hcr : computeRegion (some 0) r = (r + 1, r) := by
    simp only [computeRegion, Option.getD]
    rw [if_pos (by omega)]
    rw [Nat.mod_eq_of_lt (by omega), Nat.mod_eq_of_lt (by omega)]
    simp
  refine ⟨hcr, by rw [hcr]; omega, ?_, by simp [run_subprocess, ha4, Except.isOk, Except.toBool]⟩
  rw [setupWrites, resolveRows, ha1, ha2, ha3]
  simp [hcr]

/-- Concrete run configuration passing a zero window height on a 24-row
terminal. -/
def zeroHeightArgs : RunArgs :=
  { reads := []
    childExit := 0
    stderrLines := some 0
    isTerm := true
    termRowsRaw := some 24
    setupFail := false
    readerTimedOut := false
    snapshotReads := 0
    renderTimedOut := false }

/-- Witness for C10 (amended): the zero height on a 24-row terminal gives
the inverted region (25, 24) and the run still emits its sequences and
returns ok. -/
theorem zero_height_not_validated_witness :
    (1 ≤ 24 ∧ 24 ≤ 65534 ∧ zeroHeightArgs.stderrLines = some 0 ∧
      zeroHeightArgs.isTerm = true ∧ zeroHeightArgs.termRowsRaw = some 24 ∧
      zeroHeightArgs.setupFail = false) ∧
    (computeRegion (some 0) 24 = (24 + 1, 24) ∧
     (computeRegion (some 0) 24).2 < (computeRegion (some 0) 24).1 ∧
     setupWrites zeroHeightArgs =
       [setScrollingRegionSeq (24 + 1) 24, moveCursorToLineSeq (24 + 1)] ∧
     (run_subprocess zeroHeightArgs).isOk = true) :=
  ⟨⟨by decide, by decide, rfl, rfl, rfl, rfl⟩,
    zero_height_not_validated 24 (by decide) (by decide) zeroHeightArgs rfl rfl rfl rfl⟩
